import Mathlib

/-!
Verification development for the ccp4 density-map reader (ccp4.py) and the
symmetry replicator of pdb_eda/densityAnalysis.py.

The Python code is shallowly embedded: machine floats are modelled by exact
rationals, Python lists of three numbers by the `Tri` structure, in-place list
mutation by explicit state passing, and a raised exception (struct.error,
ZeroDivisionError, IndexError) by an `Option` result of `none`.
-/

set_option maxRecDepth 4000

/-- A Python list of exactly three entries, as used for crs and xyz
coordinates, grid extents, intervals and grid spacings throughout ccp4.py. -/
structure Tri (α : Type) where
  a0 : α
  a1 : α
  a2 : α
  deriving DecidableEq

/-- Python indexing `t[i]` on a three-element list: indices -3..-1 wrap
around (Python negative indexing), which for a length-3 list coincides with
indexing by `i % 3`.  (Out-of-range indices raise in Python; all call sites
modelled here are guarded by the hypotheses of the theorems that use them.) -/
def Tri.zget {α : Type} (t : Tri α) (i : ℤ) : α :=
  if i % 3 = 0 then t.a0 else if i % 3 = 1 then t.a1 else t.a2

/-- Python assignment `t[i] = v` on a three-element list, with the same
negative-index wrapping as `Tri.zget`. -/
def Tri.zset {α : Type} (t : Tri α) (i : ℤ) (v : α) : Tri α :=
  if i % 3 = 0 then ⟨v, t.a1, t.a2⟩
  else if i % 3 = 1 then ⟨t.a0, v, t.a2⟩
  else ⟨t.a0, t.a1, v⟩

/-- Python `int(x)`: truncation toward zero of an exact rational. -/
def pyInt (q : ℚ) : ℤ := Int.tdiv q.num q.den

/-- Python `int(np.ceil(x))`: the ceiling (an integer-valued float, on which
`int` is the identity). -/
def pyCeil (q : ℚ) : ℤ := ⌈q⌉

theorem pyInt_intCast (n : ℤ) : pyInt (n : ℚ) = n := by
  simp [pyInt]

/-- The fields of ccp4.py's DensityHeader that the density matrix operations
read.  `ncrs` are the column/row/section extents (headerTuple[0:3]),
`xyzInterval` is `[nintervalX, nintervalY, nintervalZ]`, `xyzLength` is
`[xlength, ylength, zlength]`, and `col2xyz`/`row2xyz`/`sec2xyz` is the raw
axis-permutation triple.  `origin` and `unitVolume` are carried as the values
the constructor computed (their trigonometric formulas are irrational and
never inspected by the properties below). -/
structure DensityHeader where
  ncrs : Tri ℤ
  xyzInterval : Tri ℤ
  xyzLength : Tri ℚ
  col2xyz : ℤ
  row2xyz : ℤ
  sec2xyz : ℤ
  origin : Tri ℚ
  unitVolume : ℚ
  deriving DecidableEq

/-- `self.gridLength = [x/y for x, y in zip(self.xyzLength, self.xyzInterval)]`.
(In Python a zero interval raises ZeroDivisionError during construction, so a
constructed header always has nonzero intervals; the construction-time failure
itself is modelled by `mkGridLengthEntry` below.) -/
def DensityHeader.gridLength (h : DensityHeader) : Tri ℚ :=
  ⟨h.xyzLength.a0 / (h.xyzInterval.a0 : ℚ),
   h.xyzLength.a1 / (h.xyzInterval.a1 : ℚ),
   h.xyzLength.a2 / (h.xyzInterval.a2 : ℚ)⟩

/-- `self.map2crs = [self.col2xyz - 1, self.row2xyz - 1, self.sec2xyz - 1]`. -/
def DensityHeader.map2crs (h : DensityHeader) : Tri ℤ :=
  ⟨h.col2xyz - 1, h.row2xyz - 1, h.sec2xyz - 1⟩

/-- `indices = [0,0,0]; indices[col2xyz-1] = 0; indices[row2xyz-1] = 1;
indices[sec2xyz-1] = 2; self.map2xyz = indices` (sequential in-place
assignments, later ones overwriting earlier ones). -/
def DensityHeader.map2xyz (h : DensityHeader) : Tri ℤ :=
  (((Tri.mk 0 0 0).zset (h.col2xyz - 1) 0).zset (h.row2xyz - 1) 1).zset
    (h.sec2xyz - 1) 2

/-- `DensityHeader.xyz2crsCoord`: `crsGridPos = [int((xyz[i] - origin[i]) /
gridLength[i]) for i in range(3)]` followed by the inverse axis permutation
`[crsGridPos[map2crs[2]], crsGridPos[map2crs[1]], crsGridPos[map2crs[0]]]`. -/
def DensityHeader.xyz2crsCoord (h : DensityHeader) (xyz : Tri ℚ) : Tri ℤ :=
  let p : Tri ℤ :=
    ⟨pyInt ((xyz.a0 - h.origin.a0) / h.gridLength.a0),
     pyInt ((xyz.a1 - h.origin.a1) / h.gridLength.a1),
     pyInt ((xyz.a2 - h.origin.a2) / h.gridLength.a2)⟩
  ⟨p.zget h.map2crs.a2, p.zget h.map2crs.a1, p.zget h.map2crs.a0⟩

/-- `DensityHeader.crs2xyzCoord`: `crsGridPos = [crs[2], crs[1], crs[0]]`,
then `[int(crsGridPos[map2xyz[i]]) * gridLength[i] + origin[i] for i in
range(3)]`.  The argument is a rational triple because findAberrantBlubs also
passes a fractional centroid through this function (Python `int()`
truncates it). -/
def DensityHeader.crs2xyzCoord (h : DensityHeader) (crs : Tri ℚ) : Tri ℚ :=
  let p : Tri ℚ := ⟨crs.a2, crs.a1, crs.a0⟩
  ⟨(pyInt (p.zget h.map2xyz.a0) : ℚ) * h.gridLength.a0 + h.origin.a0,
   (pyInt (p.zget h.map2xyz.a1) : ℚ) * h.gridLength.a1 + h.origin.a1,
   (pyInt (p.zget h.map2xyz.a2) : ℚ) * h.gridLength.a2 + h.origin.a2⟩

/-- The six valid raw axis-permutation triples `(col2xyz, row2xyz, sec2xyz)`. -/
def permTriples : List (ℤ × ℤ × ℤ) :=
  [(1, 2, 3), (1, 3, 2), (2, 1, 3), (2, 3, 1), (3, 1, 2), (3, 2, 1)]

theorem pyInt_mul_div_cancel (k : ℤ) (g : ℚ) (hg : g ≠ 0) :
    pyInt ((k : ℚ) * g / g) = k := by
  rw [mul_div_cancel_right₀ _ hg, pyInt_intCast]

/-- Claim C2: for every header whose axis-permutation triple is one of the six
valid permutations and whose grid spacing is positive on every axis, and for
every interior crs coordinate (each component a non-negative integer strictly
below the grid extent), converting to Cartesian coordinates and back is the
identity: `xyz2crsCoord (crs2xyzCoord c) = c`.  In this exact-rational model
the truncation at the end of `xyz2crsCoord` is applied to an exact integer, so
there is no drift. -/
theorem xyz2crs_crs2xyz_roundtrip (h : DensityHeader)
    (hperm : (h.col2xyz, h.row2xyz, h.sec2xyz) ∈ permTriples)
    (hg0 : 0 < h.gridLength.a0) (hg1 : 0 < h.gridLength.a1)
    (hg2 : 0 < h.gridLength.a2) (c : Tri ℤ)
    (hc0 : 0 ≤ c.a0 ∧ c.a0 < h.ncrs.a0) (hc1 : 0 ≤ c.a1 ∧ c.a1 < h.ncrs.a1)
    (hc2 : 0 ≤ c.a2 ∧ c.a2 < h.ncrs.a2) :
    h.xyz2crsCoord (h.crs2xyzCoord ⟨(c.a0 : ℚ), (c.a1 : ℚ), (c.a2 : ℚ)⟩) = c := by
  have hg0' := ne_of_gt hg0
  have hg1' := ne_of_gt hg1
  have hg2' := ne_of_gt hg2
  simp only [permTriples, List.mem_cons, List.mem_singleton, Prod.mk.injEq,
    List.not_mem_nil, or_false] at hperm
  rcases hperm with ⟨e1, e2, e3⟩ | ⟨e1, e2, e3⟩ | ⟨e1, e2, e3⟩ | ⟨e1, e2, e3⟩ |
    ⟨e1, e2, e3⟩ | ⟨e1, e2, e3⟩ <;>
    simp only [DensityHeader.xyz2crsCoord, DensityHeader.crs2xyzCoord,
      DensityHeader.map2crs, DensityHeader.map2xyz, Tri.zget, Tri.zset,
      e1, e2, e3] <;>
    norm_num <;>
    simp [pyInt_mul_div_cancel _ _ hg0', pyInt_mul_div_cancel _ _ hg1',
      pyInt_mul_div_cancel _ _ hg2', pyInt_intCast]

/-- Claim C2 witness: a concrete identity-permutation header with unit grid
spacing, and the interior coordinate (1,0,1). -/
def hId : DensityHeader :=
  ⟨⟨2, 2, 2⟩, ⟨2, 2, 2⟩, ⟨2, 2, 2⟩, 1, 2, 3, ⟨0, 0, 0⟩, 1⟩

theorem xyz2crs_crs2xyz_roundtrip_witness :
    (0 : ℤ) ≤ 1 ∧ 1 < hId.ncrs.a0 ∧
      hId.xyz2crsCoord
        (hId.crs2xyzCoord ⟨((1 : ℤ) : ℚ), ((0 : ℤ) : ℚ), ((1 : ℤ) : ℚ)⟩) =
        ⟨1, 0, 1⟩ :=
  ⟨by decide, by decide,
    xyz2crs_crs2xyz_roundtrip hId (by decide)
      (by norm_num [hId, DensityHeader.gridLength])
      (by norm_num [hId, DensityHeader.gridLength])
      (by norm_num [hId, DensityHeader.gridLength])
      ⟨1, 0, 1⟩ (by decide) (by decide) (by decide)⟩

/-- One axis pass of `DensityMatrix.validCRS`: if the component lies outside
`[0, ncrs]` (note: `ncrs` itself is in range for this test, since the source
uses a strict `crsCoord[ind] > self.header.ncrs[ind]`), subtract
`int(np.floor(crsCoord[ind] / crsInterval) * crsInterval)` in place.
Exact integer floor division models the float computation. -/
def validCRSaxis (ncrs I c : ℤ) : ℤ :=
  if c < 0 ∨ ncrs < c then c - Int.fdiv c I * I else c

/-- `DensityMatrix.validCRS`, with the in-place mutation of the caller's
coordinate list made explicit: the result is the validity flag together with
the coordinate list as the loop leaves it.  The `for ind in range(3)` loop is
unrolled; `return False` inside the loop stops the loop, leaving later
components untouched.  `crsInterval  = self.header.xyzInterval[map2crs[ind]]`. -/
def validCRS (h : DensityHeader) (c : Tri ℤ) : Bool × Tri ℤ :=
  let I0 := h.xyzInterval.zget h.map2crs.a0
  let c0 := validCRSaxis h.ncrs.a0 I0 c.a0
  if h.ncrs.a0 < c0 ∧ c0 < I0 then (false, ⟨c0, c.a1, c.a2⟩)
  else
    let I1 := h.xyzInterval.zget h.map2crs.a1
    let c1 := validCRSaxis h.ncrs.a1 I1 c.a1
    if h.ncrs.a1 < c1 ∧ c1 < I1 then (false, ⟨c0, c1, c.a2⟩)
    else
      let I2 := h.xyzInterval.zget h.map2crs.a2
      let c2 := validCRSaxis h.ncrs.a2 I2 c.a2
      if h.ncrs.a2 < c2 ∧ c2 < I2 then (false, ⟨c0, c1, c2⟩)
      else (true, ⟨c0, c1, c2⟩)

/-- ccp4.py's DensityMatrix: the header plus the flat density list, which
`__init__` reshapes to a numpy array of shape `(ncrs[2], ncrs[1], ncrs[0])`. -/
structure DensityMatrix where
  header : DensityHeader
  densityArray : List ℚ
  deriving DecidableEq

/-- `DensityMatrix.getPointDensityFromCrs`: run `validCRS` (which mutates the
coordinate), return the Python int `0` when it reports invalid, and otherwise
read `self.density[crs[0], crs[1], crs[2]]` from the array of shape
`(ncrs[2], ncrs[1], ncrs[0])`.  numpy integer indexing accepts indices in
`[-n, n)` on a dimension of size `n` (negative ones wrap once) and raises
IndexError otherwise; the raise is modelled as `none`.  The result carries the
mutated coordinate so callers can observe the in-place update. -/
def getPointDensityFromCrs (m : DensityMatrix) (c : Tri ℤ) :
    Option (ℚ × Tri ℤ) :=
  let r := validCRS m.header c
  if r.1 = false then some (0, r.2)
  else
    let n0 := m.header.ncrs.a0
    let n1 := m.header.ncrs.a1
    let n2 := m.header.ncrs.a2
    let c' := r.2
    if (-n2 ≤ c'.a0 ∧ c'.a0 < n2) ∧ (-n1 ≤ c'.a1 ∧ c'.a1 < n1) ∧
        (-n0 ≤ c'.a2 ∧ c'.a2 < n0) then
      some (m.densityArray.getD
        (((c'.a0 % n2 * n1 + c'.a1 % n1) * n0 + c'.a2 % n0).toNat) 0, c')
    else none

/-- The cubic grid witnessing claim C1's counterexample: extents (2,2,2),
interval counts (2,2,2), eight stored density values. -/
def mCube : DensityMatrix := ⟨hId, [0, 0, 0, 0, 0, 0, 0, 0]⟩

/-- Claim C1 counterexample: on a 2×2×2 grid, the crs coordinate (2,0,0) has a
component equal to `ncrs` on the first axis — outside the valid extent — yet
the lookup does not return 0: `validCRS` leaves the component untouched
(its guard is `crsCoord[ind] > ncrs[ind]`, strict) and reports the coordinate
valid, and the subsequent numpy access raises IndexError (modelled `none`). -/
theorem getPointDensityFromCrs_ncrs_component_cex :
    getPointDensityFromCrs mCube ⟨2, 0, 0⟩ = none ∧
      mCube.header.ncrs.a0 = 2 ∧
      validCRS mCube.header ⟨2, 0, 0⟩ = (true, ⟨2, 0, 0⟩) := by
  decide

/-- Claim C1, amended part: whenever `validCRS` reports the (normalized)
coordinate invalid — i.e. some axis's normalized component lies strictly
between `ncrs` and that axis's interval count — `getPointDensityFromCrs`
returns exactly the Python int 0 (with the mutated coordinate), for every
grid and every integer coordinate. -/
theorem getPointDensityFromCrs_invalid_returns_zero (m : DensityMatrix)
    (c c' : Tri ℤ) (h : validCRS m.header c = (false, c')) :
    getPointDensityFromCrs m c = some (0, c') := by
  unfold getPointDensityFromCrs
  rw [h]
  simp

/-- A grid whose interval counts (4,4,4) exceed its extents (2,2,2), so that
the redundant window `(ncrs, interval)` of `validCRS` is nonempty. -/
def mWin : DensityMatrix :=
  ⟨⟨⟨2, 2, 2⟩, ⟨4, 4, 4⟩, ⟨4, 4, 4⟩, 1, 2, 3, ⟨0, 0, 0⟩, 1⟩,
   [0, 0, 0, 0, 0, 0, 0, 0]⟩

theorem getPointDensityFromCrs_invalid_returns_zero_witness :
    validCRS mWin.header ⟨3, 0, 0⟩ = (false, ⟨3, 0, 0⟩) ∧
      getPointDensityFromCrs mWin ⟨3, 0, 0⟩ = some (0, ⟨3, 0, 0⟩) :=
  ⟨by decide,
    getPointDensityFromCrs_invalid_returns_zero mWin ⟨3, 0, 0⟩ ⟨3, 0, 0⟩
      (by decide)⟩

/-- A grid with interval counts (4,2,2): the first axis has a nonempty
redundant window `(ncrs, interval) = (2, 4)`, so `validCRS` can fail on axis 0
before it ever looks at axis 1. -/
def mFrame : DensityMatrix :=
  ⟨⟨⟨2, 2, 2⟩, ⟨4, 2, 2⟩, ⟨4, 2, 2⟩, 1, 2, 3, ⟨0, 0, 0⟩, 1⟩,
   [0, 0, 0, 0, 0, 0, 0, 0]⟩

/-- Claim C9 counterexample: for the coordinate (3,-1,0) on `mFrame`, axis 0
normalizes 3 to 3 (already its remainder mod 4) and then fails the window
check, so the loop returns early and the out-of-range component -1 on axis 1
is never replaced by its modulo-normalized value (which would be
`Int.fmod (-1) 2 = 1`): the caller observes the coordinate it passed,
unchanged, even though a component was outside `[0, ncrs]`. -/
theorem validCRS_no_mutation_cex :
    validCRS mFrame.header ⟨3, -1, 0⟩ = (false, ⟨3, -1, 0⟩) ∧
      getPointDensityFromCrs mFrame ⟨3, -1, 0⟩ = some (0, ⟨3, -1, 0⟩) ∧
      ((-1 : ℤ) < 0 ∧ Int.fmod (-1) 2 = 1) := by
  decide

/-- The `return False` test of one axis pass of `validCRS`, applied to the
already-normalized component: `ncrs[ind] < crsCoord[ind] < crsInterval`. -/
def validCRSwindow (ncrs I c : ℤ) : Prop :=
  ncrs < validCRSaxis ncrs I c ∧ validCRSaxis ncrs I c < I

instance (n I c : ℤ) : Decidable (validCRSwindow n I c) :=
  decidable_of_iff (n < validCRSaxis n I c ∧ validCRSaxis n I c < I) Iff.rfl

theorem validCRSaxis_out (n I a : ℤ) (h : a < 0 ∨ n < a) :
    validCRSaxis n I a = Int.fmod a I := by
  unfold validCRSaxis
  rw [if_pos h, Int.fmod_def, Int.mul_comm]

/-- Claim C9, amended: the lookup is indeed not side-effect free, but only on
the axes the validation loop actually reaches.  In full: axis 0 is always
reached, and an out-of-range first component is replaced in place by its
floor remainder modulo the axis interval; axis 1 is reached exactly when
axis 0's window check passes, and axis 2 exactly when both earlier checks
pass, and on each reached axis an out-of-range component is likewise
replaced by its floor remainder; when axis 0's window check fails the loop
returns early with components 1 and 2 exactly as passed, and when axis 1's
window check fails (axis 0 having passed) component 2 is left exactly as
passed.  So callers observe the normalized value only for components on
reached axes. -/
theorem validCRS_mutation_frame (h : DensityHeader) (c : Tri ℤ) :
    ((c.a0 < 0 ∨ h.ncrs.a0 < c.a0) →
      (validCRS h c).2.a0 = Int.fmod c.a0 (h.xyzInterval.zget h.map2crs.a0)) ∧
    (¬validCRSwindow h.ncrs.a0 (h.xyzInterval.zget h.map2crs.a0) c.a0 →
      (c.a1 < 0 ∨ h.ncrs.a1 < c.a1) →
      (validCRS h c).2.a1 = Int.fmod c.a1 (h.xyzInterval.zget h.map2crs.a1)) ∧
    (¬validCRSwindow h.ncrs.a0 (h.xyzInterval.zget h.map2crs.a0) c.a0 →
      ¬validCRSwindow h.ncrs.a1 (h.xyzInterval.zget h.map2crs.a1) c.a1 →
      (c.a2 < 0 ∨ h.ncrs.a2 < c.a2) →
      (validCRS h c).2.a2 = Int.fmod c.a2 (h.xyzInterval.zget h.map2crs.a2)) ∧
    (validCRSwindow h.ncrs.a0 (h.xyzInterval.zget h.map2crs.a0) c.a0 →
      (validCRS h c).1 = false ∧ (validCRS h c).2.a1 = c.a1 ∧
        (validCRS h c).2.a2 = c.a2) ∧
    (¬validCRSwindow h.ncrs.a0 (h.xyzInterval.zget h.map2crs.a0) c.a0 →
      validCRSwindow h.ncrs.a1 (h.xyzInterval.zget h.map2crs.a1) c.a1 →
      (validCRS h c).1 = false ∧ (validCRS h c).2.a2 = c.a2) := by
  unfold validCRSwindow
  by_cases w0 : h.ncrs.a0 <
      validCRSaxis h.ncrs.a0 (h.xyzInterval.zget h.map2crs.a0) c.a0 ∧
      validCRSaxis h.ncrs.a0 (h.xyzInterval.zget h.map2crs.a0) c.a0 <
        h.xyzInterval.zget h.map2crs.a0
  · have hv : validCRS h c =
        (false, ⟨validCRSaxis h.ncrs.a0 (h.xyzInterval.zget h.map2crs.a0) c.a0,
          c.a1, c.a2⟩) := by
      unfold validCRS
      dsimp only
      rw [if_pos w0]
    refine ⟨?_, ?_, ?_, ?_, ?_⟩
    · intro hout
      rw [hv]
      exact validCRSaxis_out _ _ _ hout
    · intro hnw0
      exact absurd w0 hnw0
    · intro hnw0 _ _
      exact absurd w0 hnw0
    · intro _
      rw [hv]
      exact ⟨rfl, rfl, rfl⟩
    · intro hnw0 _
      exact absurd w0 hnw0
  · by_cases w1 : h.ncrs.a1 <
        validCRSaxis h.ncrs.a1 (h.xyzInterval.zget h.map2crs.a1) c.a1 ∧
        validCRSaxis h.ncrs.a1 (h.xyzInterval.zget h.map2crs.a1) c.a1 <
          h.xyzInterval.zget h.map2crs.a1
    · have hv : validCRS h c =
          (false,
            ⟨validCRSaxis h.ncrs.a0 (h.xyzInterval.zget h.map2crs.a0) c.a0,
             validCRSaxis h.ncrs.a1 (h.xyzInterval.zget h.map2crs.a1) c.a1,
             c.a2⟩) := by
        unfold validCRS
        dsimp only
        rw [if_neg w0, if_pos w1]
      refine ⟨?_, ?_, ?_, ?_, ?_⟩
      · intro hout
        rw [hv]
        exact validCRSaxis_out _ _ _ hout
      · intro _ hout
        rw [hv]
        exact validCRSaxis_out _ _ _ hout
      · intro _ hnw1 _
        exact absurd w1 hnw1
      · intro w0h
        exact absurd w0h w0
      · intro _ _
        rw [hv]
        exact ⟨rfl, rfl⟩
    · have hv : (validCRS h c).2 =
          ⟨validCRSaxis h.ncrs.a0 (h.xyzInterval.zget h.map2crs.a0) c.a0,
           validCRSaxis h.ncrs.a1 (h.xyzInterval.zget h.map2crs.a1) c.a1,
           validCRSaxis h.ncrs.a2 (h.xyzInterval.zget h.map2crs.a2) c.a2⟩ := by
        unfold validCRS
        dsimp only
        rw [if_neg w0, if_neg w1]
        split
        · rfl
        · rfl
      refine ⟨?_, ?_, ?_, ?_, ?_⟩
      · intro hout
        rw [hv]
        exact validCRSaxis_out _ _ _ hout
      · intro _ hout
        rw [hv]
        exact validCRSaxis_out _ _ _ hout
      · intro _ _ hout
        rw [hv]
        exact validCRSaxis_out _ _ _ hout
      · intro w0h
        exact absurd w0h w0
      · intro _ w1h
        exact absurd w1h w1

/-- A grid with interval counts (2,4,2): the redundant window is nonempty on
axis 1 instead, so `validCRS` can fail on axis 1 after axis 0 passes. -/
def mFrame2 : DensityMatrix :=
  ⟨⟨⟨2, 2, 2⟩, ⟨2, 4, 2⟩, ⟨2, 4, 2⟩, 1, 2, 3, ⟨0, 0, 0⟩, 1⟩,
   [0, 0, 0, 0, 0, 0, 0, 0]⟩

theorem validCRS_mutation_frame_witness :
    ((validCRS mFrame.header ⟨3, -1, 0⟩).2.a0 =
        Int.fmod 3 (mFrame.header.xyzInterval.zget mFrame.header.map2crs.a0) ∧
      ((validCRS mFrame.header ⟨3, -1, 0⟩).1 = false ∧
        (validCRS mFrame.header ⟨3, -1, 0⟩).2.a1 = -1 ∧
        (validCRS mFrame.header ⟨3, -1, 0⟩).2.a2 = 0)) ∧
      (validCRS mFrame.header ⟨0, 3, 0⟩).2.a1 =
        Int.fmod 3 (mFrame.header.xyzInterval.zget mFrame.header.map2crs.a1) ∧
      (validCRS mFrame.header ⟨0, 0, 3⟩).2.a2 =
        Int.fmod 3 (mFrame.header.xyzInterval.zget mFrame.header.map2crs.a2) ∧
      ((validCRS mFrame2.header ⟨0, 3, 0⟩).1 = false ∧
        (validCRS mFrame2.header ⟨0, 3, 0⟩).2.a2 = 0) :=
  ⟨⟨(validCRS_mutation_frame mFrame.header ⟨3, -1, 0⟩).1 (by decide),
    (validCRS_mutation_frame mFrame.header ⟨3, -1, 0⟩).2.2.2.1 (by decide)⟩,
   (validCRS_mutation_frame mFrame.header ⟨0, 3, 0⟩).2.1 (by decide) (by decide),
   (validCRS_mutation_frame mFrame.header ⟨0, 0, 3⟩).2.2.1 (by decide)
     (by decide) (by decide),
   (validCRS_mutation_frame mFrame2.header ⟨0, 3, 0⟩).2.2.2.2 (by decide)
     (by decide)⟩
/-- Python `a & b` on ints: bitwise and. -/
def pyAnd (a b : ℤ) : ℤ := Int.land a b

theorem pyAnd_zero_left (n : ℤ) : pyAnd 0 n = 0 := by
  unfold pyAnd
  cases n with
  | ofNat m =>
    show Int.land (Int.ofNat 0) (Int.ofNat m) = 0
    simp [Int.land, Nat.zero_and]
  | negSucc m =>
    show Int.land (Int.ofNat 0) (Int.negSucc m) = 0
    simp [Int.land, Nat.ldiff, Nat.bitwise_zero_left]

/-- The guard of parse's interval-count recovery, exactly as Python parses it.
Because `&` binds tighter than comparisons, the source line
`header.nintervalX == 0 & header.ncrs[0] > 0` is the chained comparison
`nintervalX == (0 & ncrs[0]) > 0`, i.e.
`(nintervalX == (0 & ncrs[0])) and ((0 & ncrs[0]) > 0)`. -/
def parseIntervalFixCond (nintervalX ncrs0 : ℤ) : Bool :=
  decide (nintervalX = pyAnd 0 ncrs0) && decide (0 < pyAnd 0 ncrs0)

theorem parseIntervalFixCond_false (nx n0 : ℤ) :
    parseIntervalFixCond nx n0 = false := by
  unfold parseIntervalFixCond
  rw [pyAnd_zero_left]
  simp

/-- One entry of `self.gridLength = [x/y for x, y in zip(xyzLength,
xyzInterval)]` as evaluated inside `DensityHeader.__init__`: Python raises
ZeroDivisionError when the interval count is zero (modelled as `none`).  This
runs during `DensityHeader.fromFileHeader`, before parse's recovery code is
ever reached. -/
def mkGridLengthEntry (len : ℚ) (interval : ℤ) : Option ℚ :=
  if interval = 0 then none else some (len / (interval : ℚ))

/-- Claim C4 is wrong about the code on two counts (code bug — the recovery
and its warning are clearly intended, cf. the `warnings.warn("Fixed number of
X interval")` call, but are unreachable).  First, the guard
`nintervalX == 0 & ncrs[0] > 0` is identically false for every header — `&`
binds tighter than the comparisons, so the chain requires `(0 & ncrs[0]) > 0`
where `0 & ncrs[0] = 0` — hence the interval count is never set to
`ncrs - 1`.  Second, a zero interval count already raises ZeroDivisionError
while `DensityHeader.__init__` computes `gridLength`, before parse's recovery
lines run, so construction fails instead of warning.  (The Z-axis branch
additionally assigns a misspelled attribute `nintervaLZ`.) -/
theorem intervalFix_unreachable_and_init_fails :
    (∀ nx n0 : ℤ, parseIntervalFixCond nx n0 = false) ∧
      mkGridLengthEntry 1 0 = none :=
  ⟨parseIntervalFixCond_false, by decide⟩

/-- The guard of parse's axis-permutation default, exactly as Python parses
it: `header.col2xyz == 0 & header.row2xyz == 0 & header.sec2xyz == 0` is the
chained comparison `col2xyz == (0 & row2xyz) == (0 & sec2xyz) == 0`. -/
def parsePermDefaultCond (col row sec : ℤ) : Bool :=
  decide (col = pyAnd 0 row) && decide (pyAnd 0 row = pyAnd 0 sec) &&
    decide (pyAnd 0 sec = 0)

/-- The effect of parse's lines 63-67 on the axis-permutation triple. -/
def parsePermFix (col row sec : ℤ) : ℤ × ℤ × ℤ :=
  if parsePermDefaultCond col row sec then (1, 2, 3) else (col, row, sec)

/-- Claim C5 is wrong about the code (code bug: the code's own warning
message, "Mappings from column/row/section to xyz are all 0", states the
all-zero intent).  Because `&` binds tighter than `==`, the guard reduces to
`col2xyz == 0` alone: the triple `(0, 2, 1)` — which has two non-zero
entries — is replaced by the default `(1,2,3)`, while the triple `(1, 0, 0)`
is kept unchanged even though its row and section entries are zero.  The
guard equals `col2xyz == 0` for every header. -/
theorem permDefault_triggers_iff_col_zero :
    (∀ col row sec : ℤ,
        parsePermDefaultCond col row sec = decide (col = 0)) ∧
      parsePermFix 0 2 1 = (1, 2, 3) ∧ parsePermFix 1 0 0 = (1, 0, 0) := by
  refine ⟨fun col row sec => ?_, ?_, ?_⟩
  · unfold parsePermDefaultCond
    rw [pyAnd_zero_left, pyAnd_zero_left]
    simp
  · decide
  · decide

/-- Python `range(a, b)` (step 1), as the list `[a, a+1, ..., b-1]`. -/
def intRangeAux : ℕ → ℤ → List ℤ
  | 0, _ => []
  | n + 1, a => a :: intRangeAux n (a + 1)

def intRange (a b : ℤ) : List ℤ := intRangeAux (b - a).toNat a

theorem intRange_eq_nil {a b : ℤ} (h : b ≤ a) : intRange a b = [] := by
  unfold intRange
  rw [Int.toNat_of_nonpos (by omega)]
  rfl

theorem intRange_eq_cons {a b : ℤ} (h : a < b) :
    intRange a b = a :: intRange (a + 1) b := by
  unfold intRange
  rw [show (b - a).toNat = (b - (a + 1)).toNat + 1 by omega]
  rfl

theorem foldlM_head_none {α β : Type} (f : β → α → Option β) (b : β) (x : α)
    (L : List α) (hf : f b x = none) : List.foldlM f b (x :: L) = none := by
  simp [List.foldlM_cons, hf]

theorem foldlM_const_some {α β : Type} (L : List α) (b : β) :
    List.foldlM (fun x _ => (some x : Option β)) b L = some b := by
  induction L generalizing b with
  | nil => rfl
  | cons y ys ih => simp [List.foldlM_cons, ih]

theorem foldlM_const_pure {α β : Type} (L : List α) (b : β) :
    List.foldlM (fun x (_ : α) => (pure x : Option β)) b L = some b :=
  foldlM_const_some L b

theorem foldlM_isSome {α β : Type} (f : β → α → Option β)
    (hf : ∀ b a, (f b a).isSome) (L : List α) (b : β) :
    (List.foldlM f b L).isSome := by
  induction L generalizing b with
  | nil => simp
  | cons y ys ih =>
    simp only [List.foldlM_cons]
    obtain ⟨b', hb⟩ := Option.isSome_iff_exists.mp (hf b y)
    rw [hb]
    simpa using ih b'

/-- `crsRadius` of `getSphereCrsFromXyz`:
`xyzRadius = [np.ceil(radius / gridLength[i]) for i in range(3)]` reindexed as
`[int(xyzRadius[map2crs[0]]), int(xyzRadius[map2crs[1]]),
int(xyzRadius[map2crs[2]])]`. -/
def crsRadius (m : DensityMatrix) (radius : ℚ) : Tri ℤ :=
  ⟨pyCeil (radius / m.header.gridLength.zget m.header.map2crs.a0),
   pyCeil (radius / m.header.gridLength.zget m.header.map2crs.a1),
   pyCeil (radius / m.header.gridLength.zget m.header.map2crs.a2)⟩

/-- The cutoff filter applied to one candidate coordinate inside
`getSphereCrsFromXyz`'s loops, following Python's evaluation order exactly:
`0 < densityCutoff < getPointDensityFromCrs(crs) or
getPointDensityFromCrs(crs) < densityCutoff < 0 or densityCutoff == 0`.
Chained comparisons short-circuit, so for positive cutoff the density is
fetched (possibly twice), and otherwise exactly once; each fetch can raise
(`none`), and each fetch mutates the coordinate in place — the coordinate
appended to the result list is the mutated one.  Result: `none` for a raised
error, `some none` for "not appended", `some (some c)` for "append c". -/
def sphereCutoffStep (m : DensityMatrix) (cutoff : ℚ) (crs : Tri ℤ) :
    Option (Option (Tri ℤ)) :=
  if 0 < cutoff then
    match getPointDensityFromCrs m crs with
    | none => none
    | some (d1, crs1) =>
      if cutoff < d1 then some (some crs1)
      else
        match getPointDensityFromCrs m crs1 with
        | none => none
        | some (d2, crs2) =>
          if d2 < cutoff ∧ cutoff < 0 then some (some crs2)
          else if cutoff = 0 then some (some crs2)
          else some none
  else
    match getPointDensityFromCrs m crs with
    | none => none
    | some (d2, crs2) =>
      if d2 < cutoff ∧ cutoff < 0 then some (some crs2)
      else if cutoff = 0 then some (some crs2)
      else some none

/-- `DensityMatrix.getSphereCrsFromXyz`: three nested `for` loops over
`range(-crsRadius[i], crsRadius[i]+1)`, keeping the offsets inside the
axis-scaled ellipsoid `cInd²/crsRadius[0]² + rInd²/crsRadius[1]² +
sInd²/crsRadius[2]² < 1` and passing the resulting crs coordinates through
the cutoff filter.  The squared radii appear as literal divisors with no
guard: when a loop body is reached with a zero `crsRadius` component, the
division raises ZeroDivisionError (`none`). -/
def getSphereCrsFromXyz (m : DensityMatrix) (xyz : Tri ℚ)
    (radius cutoff : ℚ) : Option (List (Tri ℤ)) :=
  let crsCoord := m.header.xyz2crsCoord xyz
  let R := crsRadius m radius
  List.foldlM
    (fun acc (cInd : ℤ) =>
      List.foldlM
        (fun acc2 (rInd : ℤ) =>
          List.foldlM
            (fun acc3 (sInd : ℤ) =>
              if R.a0 = 0 ∨ R.a1 = 0 ∨ R.a2 = 0 then none
              else
                if (cInd : ℚ) ^ 2 / (R.a0 : ℚ) ^ 2 + (rInd : ℚ) ^ 2 / (R.a1 : ℚ) ^ 2 +
                    (sInd : ℚ) ^ 2 / (R.a2 : ℚ) ^ 2 < 1 then
                  match sphereCutoffStep m cutoff
                      ⟨crsCoord.a0 + cInd, crsCoord.a1 + rInd, crsCoord.a2 + sInd⟩ with
                  | none => none
                  | some none => some acc3
                  | some (some crs) => some (acc3 ++ [crs])
                else some acc3)
            acc2 (intRange (-R.a2) (R.a2 + 1)))
        acc (intRange (-R.a1) (R.a1 + 1)))
    [] (intRange (-R.a0) (R.a0 + 1))

theorem getSphere_none_of_zero_radius (m : DensityMatrix) (xyz : Tri ℚ)
    (radius cutoff : ℚ) (h0 : 0 ≤ (crsRadius m radius).a0)
    (h1 : 0 ≤ (crsRadius m radius).a1) (h2 : 0 ≤ (crsRadius m radius).a2)
    (hz : (crsRadius m radius).a0 = 0 ∨ (crsRadius m radius).a1 = 0 ∨
      (crsRadius m radius).a2 = 0) :
    getSphereCrsFromXyz m xyz radius cutoff = none := by
  unfold getSphereCrsFromXyz
  dsimp only
  rw [intRange_eq_cons (show -(crsRadius m radius).a0 <
    (crsRadius m radius).a0 + 1 by omega)]
  apply foldlM_head_none
  dsimp only
  rw [intRange_eq_cons (show -(crsRadius m radius).a1 <
    (crsRadius m radius).a1 + 1 by omega)]
  apply foldlM_head_none
  dsimp only
  rw [intRange_eq_cons (show -(crsRadius m radius).a2 <
    (crsRadius m radius).a2 + 1 by omega)]
  apply foldlM_head_none
  dsimp only
  rw [if_pos hz]

theorem getSphere_empty_of_neg_radius (m : DensityMatrix) (xyz : Tri ℚ)
    (radius cutoff : ℚ)
    (hneg : (crsRadius m radius).a0 < 0 ∨ (crsRadius m radius).a1 < 0 ∨
      (crsRadius m radius).a2 < 0) :
    getSphereCrsFromXyz m xyz radius cutoff = some [] := by
  unfold getSphereCrsFromXyz
  dsimp only
  rcases hneg with h | h | h
  · rw [show intRange (-(crsRadius m radius).a0)
      ((crsRadius m radius).a0 + 1) = [] from intRange_eq_nil (by omega)]
    rfl
  · simp only [show intRange (-(crsRadius m radius).a1)
      ((crsRadius m radius).a1 + 1) = [] from intRange_eq_nil (by omega),
      List.foldlM_nil]
    exact foldlM_const_some _ _
  · simp only [show intRange (-(crsRadius m radius).a2)
      ((crsRadius m radius).a2 + 1) = [] from intRange_eq_nil (by omega),
      List.foldlM_nil, foldlM_const_pure]
    exact foldlM_const_some _ _

theorem getSphere_isSome_of_pos (m : DensityMatrix) (xyz : Tri ℚ)
    (radius cutoff : ℚ) (h0 : 1 ≤ (crsRadius m radius).a0)
    (h1 : 1 ≤ (crsRadius m radius).a1) (h2 : 1 ≤ (crsRadius m radius).a2)
    (hstep : ∀ crs : Tri ℤ, (sphereCutoffStep m cutoff crs).isSome) :
    (getSphereCrsFromXyz m xyz radius cutoff).isSome := by
  unfold getSphereCrsFromXyz
  dsimp only
  apply foldlM_isSome
  intro acc cInd
  apply foldlM_isSome
  intro acc2 rInd
  apply foldlM_isSome
  intro acc3 sInd
  rw [if_neg (by omega)]
  split
  · obtain ⟨v, hv⟩ := Option.isSome_iff_exists.mp (hstep _)
    rw [hv]
    cases v <;> simp
  · simp

/-- Claim C10, amended: the ellipsoid test divides by the squared per-axis
grid radii with no guard, and the division is reached iff all three loop
ranges are nonempty, i.e. iff every `crsRadius` component is ≥ 0.  Hence:
if all components are ≥ 0 and some component is 0 (e.g. `radius = 0`), the
call raises ZeroDivisionError; if some component is negative (possible for a
negative radius when the grid spacings differ), the loops are empty and the
call returns `[]` without error; and if all components are ≥ 1 the
enumeration is finite and returns a list, provided each per-point cutoff
test (which performs density lookups that can themselves raise, cf. claim
C1) succeeds. -/
theorem getSphereCrsFromXyz_division_guard (m : DensityMatrix) (xyz : Tri ℚ)
    (radius cutoff : ℚ) :
    ((0 ≤ (crsRadius m radius).a0 ∧ 0 ≤ (crsRadius m radius).a1 ∧
        0 ≤ (crsRadius m radius).a2 ∧
        ((crsRadius m radius).a0 = 0 ∨ (crsRadius m radius).a1 = 0 ∨
          (crsRadius m radius).a2 = 0)) →
      getSphereCrsFromXyz m xyz radius cutoff = none) ∧
    (((crsRadius m radius).a0 < 0 ∨ (crsRadius m radius).a1 < 0 ∨
        (crsRadius m radius).a2 < 0) →
      getSphereCrsFromXyz m xyz radius cutoff = some []) ∧
    ((1 ≤ (crsRadius m radius).a0 ∧ 1 ≤ (crsRadius m radius).a1 ∧
        1 ≤ (crsRadius m radius).a2 ∧
        ∀ crs : Tri ℤ, (sphereCutoffStep m cutoff crs).isSome) →
      (getSphereCrsFromXyz m xyz radius cutoff).isSome) :=
  ⟨fun h => getSphere_none_of_zero_radius m xyz radius cutoff h.1 h.2.1
      h.2.2.1 h.2.2.2,
   fun h => getSphere_empty_of_neg_radius m xyz radius cutoff h,
   fun h => getSphere_isSome_of_pos m xyz radius cutoff h.1 h.2.1 h.2.2.1
      h.2.2.2⟩

/-- A grid whose spacings differ per axis: lengths (4,1,1) over intervals
(2,2,2) give spacings (2, 1/2, 1/2). -/
def mSphere : DensityMatrix :=
  ⟨⟨⟨2, 2, 2⟩, ⟨2, 2, 2⟩, ⟨4, 1, 1⟩, 1, 2, 3, ⟨0, 0, 0⟩, 1⟩,
   [1, 1, 1, 1, 1, 1, 1, 1]⟩

theorem mSphere_grid0 :
    mSphere.header.gridLength.zget mSphere.header.map2crs.a0 = 2 := by
  norm_num [mSphere, DensityHeader.gridLength, DensityHeader.map2crs, Tri.zget]

theorem mSphere_grid1 :
    mSphere.header.gridLength.zget mSphere.header.map2crs.a1 = 1 / 2 := by
  norm_num [mSphere, DensityHeader.gridLength, DensityHeader.map2crs, Tri.zget]

theorem mSphere_grid2 :
    mSphere.header.gridLength.zget mSphere.header.map2crs.a2 = 1 / 2 := by
  norm_num [mSphere, DensityHeader.gridLength, DensityHeader.map2crs, Tri.zget]

theorem mSphere_crsRadius_neg1 : crsRadius mSphere (-1) = ⟨0, -2, -2⟩ := by
  unfold crsRadius
  rw [mSphere_grid0, mSphere_grid1, mSphere_grid2]
  have c0 : pyCeil ((-1 : ℚ) / 2) = 0 := by
    unfold pyCeil
    norm_num
  have c1 : pyCeil ((-1 : ℚ) / (1 / 2)) = -2 := by
    unfold pyCeil
    rw [show (-1 : ℚ) / (1 / 2) = ((-2 : ℤ) : ℚ) by norm_num]
    exact Int.ceil_intCast _
  rw [c0, c1]

/-- Claim C10 counterexample: on `mSphere` (spacings 2, 1/2, 1/2) with
radius -1, the per-axis grid radius on the first axis is
`ceil(-1/2) = 0`, yet `getSphereCrsFromXyz` does not raise a
division-by-zero error: the axis-1 radius is `ceil(-2) = -2`, so the middle
loop range `range(2, -1)` is empty, the division is never executed, and the
call returns the empty list. -/
theorem getSphereCrs_zero_ceil_no_error_cex :
    (crsRadius mSphere (-1)).a0 = 0 ∧
      getSphereCrsFromXyz mSphere ⟨0, 0, 0⟩ (-1) 0 = some [] := by
  constructor
  · rw [mSphere_crsRadius_neg1]
  · exact getSphere_empty_of_neg_radius mSphere ⟨0, 0, 0⟩ (-1) 0
      (by rw [mSphere_crsRadius_neg1]; decide)

theorem mSphere_crsRadius_zero : crsRadius mSphere 0 = ⟨0, 0, 0⟩ := by
  unfold crsRadius
  rw [mSphere_grid0, mSphere_grid1, mSphere_grid2]
  have c0 : pyCeil ((0 : ℚ) / 2) = 0 := by
    unfold pyCeil
    norm_num
  have c1 : pyCeil ((0 : ℚ) / (1 / 2)) = 0 := by
    unfold pyCeil
    norm_num
  rw [c0, c1]

theorem getSphereCrsFromXyz_division_guard_witness :
    getSphereCrsFromXyz mSphere ⟨0, 0, 0⟩ 0 0 = none :=
  (getSphereCrsFromXyz_division_guard mSphere ⟨0, 0, 0⟩ 0 0).1
    (by rw [mSphere_crsRadius_zero]; decide)

/-- The 26-connectivity test of `findAberrantBlubs`:
`-1 <= (y[0] - x[0]) <= 1 and -1 <= (y[1] - x[1]) <= 1 and
-1 <= (y[2] - x[2]) <= 1`. -/
def adjacentB (y x : Tri ℤ) : Bool :=
  decide ((-1 ≤ y.a0 - x.a0 ∧ y.a0 - x.a0 ≤ 1) ∧
    (-1 ≤ y.a1 - x.a1 ∧ y.a1 - x.a1 ≤ 1) ∧
    (-1 ≤ y.a2 - x.a2 ∧ y.a2 - x.a2 ≤ 1))

theorem adjacentB_symm (a b : Tri ℤ) : adjacentB a b = adjacentB b a := by
  unfold adjacentB
  simp only [decide_eq_decide]
  omega

/-- Adjacency between positions `y` and `x` of the candidate list. -/
def adjIdx (l : List (Tri ℤ)) (y x : ℕ) : Bool :=
  adjacentB (l.getD y ⟨0, 0, 0⟩) (l.getD x ⟨0, 0, 0⟩)

/-- One evaluation of `adjacentSet = {x for x in range(len(crsCoordList))
for y in diffSet if <adjacent>}`. -/
def adjacentSetOf (l : List (Tri ℤ)) (diff : Finset ℕ) : Finset ℕ :=
  (Finset.range l.length).filter (fun x => ∃ y ∈ diff, adjIdx l y x = true)

/-- The inner `while True` loop of `findAberrantBlubs`
(`diffSet = newSet - oldSet; newSet.update(adjacentSet); break when stable`),
written with a fuel argument; `grow` supplies `len(crsCoordList) + 1` units
of fuel, which always reaches the fixed point because each non-final
iteration strictly enlarges `newSet` inside `range(len(crsCoordList))`. -/
def growLoop (l : List (Tri ℤ)) : ℕ → Finset ℕ → Finset ℕ → Finset ℕ
  | 0, _, newSet => newSet
  | fuel + 1, oldSet, newSet =>
    if newSet ∪ adjacentSetOf l (newSet \ oldSet) = newSet then newSet
    else growLoop l fuel newSet (newSet ∪ adjacentSetOf l (newSet \ oldSet))

/-- One outer iteration of the clustering stage: the set grown from an
unused seed index (`oldSet = set(); newSet = {ind}; while True: ...`). -/
def grow (l : List (Tri ℤ)) (ind : ℕ) : Finset ℕ :=
  growLoop l (l.length + 1) ∅ {ind}

/-- One adjacency step between in-range positions of the candidate list. -/
def StepIdx (l : List (Tri ℤ)) (y x : ℕ) : Prop :=
  y < l.length ∧ x < l.length ∧ adjIdx l y x = true

/-- Connectivity (chains of 26-adjacency) between positions of the
candidate list. -/
def ReachIdx (l : List (Tri ℤ)) : ℕ → ℕ → Prop :=
  Relation.ReflTransGen (StepIdx l)

theorem StepIdx_symm {l : List (Tri ℤ)} {a b : ℕ} (h : StepIdx l a b) :
    StepIdx l b a := by
  refine ⟨h.2.1, h.1, ?_⟩
  unfold adjIdx
  rw [adjacentB_symm]
  exact h.2.2

theorem ReachIdx_symm {l : List (Tri ℤ)} {a b : ℕ} (h : ReachIdx l a b) :
    ReachIdx l b a := by
  induction h with
  | refl => exact Relation.ReflTransGen.refl
  | tail _ hbc ih =>
    exact Relation.ReflTransGen.trans
      (Relation.ReflTransGen.single (StepIdx_symm hbc)) ih

theorem ReachIdx_lt {l : List (Tri ℤ)} {k x : ℕ} (hk : k < l.length)
    (h : ReachIdx l k x) : x < l.length := by
  induction h with
  | refl => exact hk
  | tail _ hbc _ => exact hbc.2.1

theorem adjacentSetOf_subset_range (l : List (Tri ℤ)) (d : Finset ℕ) :
    adjacentSetOf l d ⊆ Finset.range l.length :=
  Finset.filter_subset _ _

theorem mem_adjacentSetOf {l : List (Tri ℤ)} {d : Finset ℕ} {x : ℕ} :
    x ∈ adjacentSetOf l d ↔
      x < l.length ∧ ∃ y ∈ d, adjIdx l y x = true := by
  simp [adjacentSetOf, Finset.mem_filter, Finset.mem_range]

theorem adjacentSetOf_frontier {l : List (Tri ℤ)} {old new : Finset ℕ}
    (hcl : adjacentSetOf l old ⊆ new) :
    adjacentSetOf l new ⊆ new ∪ adjacentSetOf l (new \ old) := by
  intro x hx
  rw [mem_adjacentSetOf] at hx
  obtain ⟨hxr, y, hy, hadj⟩ := hx
  by_cases hyo : y ∈ old
  · exact Finset.mem_union_left _
      (hcl (mem_adjacentSetOf.mpr ⟨hxr, y, hyo, hadj⟩))
  · exact Finset.mem_union_right _
      (mem_adjacentSetOf.mpr ⟨hxr, y, Finset.mem_sdiff.mpr ⟨hy, hyo⟩, hadj⟩)

theorem growLoop_spec (l : List (Tri ℤ)) (seed : ℕ) :
    ∀ (fuel : ℕ) (old new : Finset ℕ),
      old ⊆ new → adjacentSetOf l old ⊆ new →
      new ⊆ Finset.range l.length →
      l.length + 1 ≤ fuel + new.card →
      (∀ x ∈ new, ReachIdx l seed x) →
      new ⊆ growLoop l fuel old new ∧
        growLoop l fuel old new ⊆ Finset.range l.length ∧
        adjacentSetOf l (growLoop l fuel old new) ⊆ growLoop l fuel old new ∧
        (∀ x ∈ growLoop l fuel old new, ReachIdx l seed x) := by
  intro fuel
  induction fuel with
  | zero =>
    intro old new _ _ hrange hfuel _
    exfalso
    have hc := Finset.card_le_card hrange
    rw [Finset.card_range] at hc
    omega
  | succ fuel ih =>
    intro old new hsub hcl hrange hfuel hreach
    unfold growLoop
    by_cases hfix : new ∪ adjacentSetOf l (new \ old) = new
    · rw [if_pos hfix]
      refine ⟨Finset.Subset.refl _, hrange, ?_, hreach⟩
      intro x hx
      have hm := adjacentSetOf_frontier hcl hx
      rw [hfix] at hm
      exact hm
    · rw [if_neg hfix]
      have hsub2 : new ⊆ new ∪ adjacentSetOf l (new \ old) :=
        Finset.subset_union_left
      have hcl2 : adjacentSetOf l new ⊆ new ∪ adjacentSetOf l (new \ old) :=
        adjacentSetOf_frontier hcl
      have hrange2 : new ∪ adjacentSetOf l (new \ old) ⊆
          Finset.range l.length :=
        Finset.union_subset hrange (adjacentSetOf_subset_range l _)
      have hcard : new.card < (new ∪ adjacentSetOf l (new \ old)).card :=
        Finset.card_lt_card
          (Finset.ssubset_iff_subset_ne.mpr ⟨hsub2, fun e => hfix e.symm⟩)
      have hreach2 : ∀ x ∈ new ∪ adjacentSetOf l (new \ old),
          ReachIdx l seed x := by
        intro x hx
        rcases Finset.mem_union.mp hx with hx | hx
        · exact hreach x hx
        · rw [mem_adjacentSetOf] at hx
          obtain ⟨hxr, y, hy, hadj⟩ := hx
          have hy' := Finset.mem_sdiff.mp hy
          have hyr : y < l.length := Finset.mem_range.mp (hrange hy'.1)
          exact Relation.ReflTransGen.tail (hreach y hy'.1) ⟨hyr, hxr, hadj⟩
      obtain ⟨h1, h2, h3, h4⟩ := ih new (new ∪ adjacentSetOf l (new \ old))
        hsub2 hcl2 hrange2 (by omega) hreach2
      exact ⟨Finset.Subset.trans hsub2 h1, h2, h3, h4⟩

theorem mem_grow {l : List (Tri ℤ)} {ind : ℕ} (hind : ind < l.length)
    (x : ℕ) : x ∈ grow l ind ↔ ReachIdx l ind x := by
  have hempty : adjacentSetOf l ∅ ⊆ {ind} := by
    intro z hz
    rw [mem_adjacentSetOf] at hz
    obtain ⟨_, y, hy, _⟩ := hz
    exact absurd hy (Finset.not_mem_empty y)
  have hsingle : ({ind} : Finset ℕ) ⊆ Finset.range l.length := by
    rw [Finset.singleton_subset_iff, Finset.mem_range]
    exact hind
  have hreach1 : ∀ z ∈ ({ind} : Finset ℕ), ReachIdx l ind z := by
    intro z hz
    rw [Finset.mem_singleton] at hz
    subst hz
    exact Relation.ReflTransGen.refl
  have hspec := growLoop_spec l ind (l.length + 1) ∅ {ind}
    (Finset.empty_subset _) hempty hsingle
    (by rw [Finset.card_singleton]; omega) hreach1
  constructor
  · intro hx
    exact hspec.2.2.2 x hx
  · intro hr
    induction hr with
    | refl => exact hspec.1 (Finset.mem_singleton_self ind)
    | tail _ hbc ih =>
      exact hspec.2.2.1
        (mem_adjacentSetOf.mpr ⟨hbc.2.1, _, ih, hbc.2.2⟩)

theorem seed_mem_grow {l : List (Tri ℤ)} {ind : ℕ} (hind : ind < l.length) :
    ind ∈ grow l ind :=
  (mem_grow hind ind).mpr Relation.ReflTransGen.refl

/-- The outer `for ind in range(len(crsCoordList))` loop of
`findAberrantBlubs`, carrying `usedIndex` and emitting `adjSetList`. -/
def clusterAux (l : List (Tri ℤ)) : List ℕ → Finset ℕ → List (Finset ℕ)
  | [], _ => []
  | i :: rest, used =>
    if i ∈ used then clusterAux l rest used
    else grow l i :: clusterAux l rest (used ∪ grow l i)

/-- The clustering stage of `findAberrantBlubs` as a function of the
candidate coordinate list: the list of index sets (`adjSetList`), one per
discovered blob. -/
def findBlobSets (l : List (Tri ℤ)) : List (Finset ℕ) :=
  clusterAux l (List.range l.length) ∅

theorem clusterAux_shape (l : List (Tri ℤ)) :
    ∀ (idxs : List ℕ) (used : Finset ℕ) (s : Finset ℕ),
      s ∈ clusterAux l idxs used → ∃ k, k ∈ idxs ∧ k ∉ used ∧ s = grow l k := by
  intro idxs
  induction idxs with
  | nil =>
    intro used s hs
    simp [clusterAux] at hs
  | cons i rest ih =>
    intro used s hs
    simp only [clusterAux] at hs
    by_cases hi : i ∈ used
    · rw [if_pos hi] at hs
      obtain ⟨k, hk, hku, he⟩ := ih used s hs
      exact ⟨k, List.mem_cons_of_mem _ hk, hku, he⟩
    · rw [if_neg hi] at hs
      rcases List.mem_cons.mp hs with he | hs'
      · exact ⟨i, List.mem_cons_self _ _, hi, he⟩
      · obtain ⟨k, hk, hku, he⟩ := ih (used ∪ grow l i) s hs'
        exact ⟨k, List.mem_cons_of_mem _ hk,
          fun hku' => hku (Finset.mem_union_left _ hku'), he⟩

theorem clusterAux_cover (l : List (Tri ℤ)) :
    ∀ (idxs : List ℕ) (used : Finset ℕ),
      (∀ j ∈ idxs, j < l.length) →
      ∀ i ∈ idxs, i ∈ used ∨ ∃ s ∈ clusterAux l idxs used, i ∈ s := by
  intro idxs
  induction idxs with
  | nil =>
    intro used _ i hi
    simp at hi
  | cons j rest ih =>
    intro used hlen i hi
    simp only [clusterAux]
    by_cases hj : j ∈ used
    · rw [if_pos hj]
      rcases List.mem_cons.mp hi with he | hir
      · subst he
        exact Or.inl hj
      · exact ih used (fun k hk => hlen k (List.mem_cons_of_mem _ hk)) i hir
    · rw [if_neg hj]
      rcases List.mem_cons.mp hi with he | hir
      · subst he
        exact Or.inr ⟨grow l i, List.mem_cons_self _ _,
          seed_mem_grow (hlen i (List.mem_cons_self _ _))⟩
      · rcases ih (used ∪ grow l j)
          (fun k hk => hlen k (List.mem_cons_of_mem _ hk)) i hir with
          hu | ⟨s, hs, his⟩
        · rcases Finset.mem_union.mp hu with h | h
          · exact Or.inl h
          · exact Or.inr ⟨grow l j, List.mem_cons_self _ _, h⟩
        · exact Or.inr ⟨s, List.mem_cons_of_mem _ hs, his⟩

theorem clusterAux_pairwise (l : List (Tri ℤ)) :
    ∀ (idxs : List ℕ) (used : Finset ℕ),
      (∀ j ∈ idxs, j < l.length) →
      List.Pairwise (fun s t => Disjoint s t) (clusterAux l idxs used) := by
  intro idxs
  induction idxs with
  | nil =>
    intro used _
    simp [clusterAux]
  | cons j rest ih =>
    intro used hlen
    simp only [clusterAux]
    by_cases hj : j ∈ used
    · rw [if_pos hj]
      exact ih used (fun k hk => hlen k (List.mem_cons_of_mem _ hk))
    · rw [if_neg hj]
      refine List.Pairwise.cons ?_
        (ih (used ∪ grow l j) (fun k hk => hlen k (List.mem_cons_of_mem _ hk)))
      intro t ht
      obtain ⟨k, hkrest, hknotu, he⟩ :=
        clusterAux_shape l rest (used ∪ grow l j) t ht
      subst he
      have hkj : k ∉ grow l j := fun hk => hknotu (Finset.mem_union_right _ hk)
      have hjlen : j < l.length := hlen j (List.mem_cons_self _ _)
      have hklen : k < l.length := hlen k (List.mem_cons_of_mem _ hkrest)
      rw [Finset.disjoint_left]
      intro x hxj hxk
      exact hkj ((mem_grow hjlen k).mpr
        (Relation.ReflTransGen.trans ((mem_grow hjlen x).mp hxj)
          (ReachIdx_symm ((mem_grow hklen x).mp hxk))))

theorem findBlobSets_blob_is_grow (l : List (Tri ℤ)) (s : Finset ℕ)
    (hs : s ∈ findBlobSets l) : ∃ k, k < l.length ∧ s = grow l k := by
  obtain ⟨k, hk, _, he⟩ := clusterAux_shape l (List.range l.length) ∅ s hs
  exact ⟨k, List.mem_range.mp hk, he⟩

/-- Claim C3: for every finite input coordinate list, the clustering stage of
`findAberrantBlubs` (26-connectivity adjacency: coordinates differing by at
most 1 on every axis) partitions the input positions — every position lies in
some emitted blob, distinct emitted blobs are disjoint — and two positions
lie in a common blob exactly when they are connected by a chain of
adjacencies, i.e. there is exactly one blob per connected component. -/
theorem findBlobSets_partition_components (l : List (Tri ℤ)) :
    (∀ i, i < l.length → ∃ s ∈ findBlobSets l, i ∈ s) ∧
      List.Pairwise (fun s t => Disjoint s t) (findBlobSets l) ∧
      (∀ x y : ℕ, (∃ s ∈ findBlobSets l, x ∈ s ∧ y ∈ s) ↔
        (x < l.length ∧ y < l.length ∧ ReachIdx l x y)) := by
  refine ⟨?_, ?_, ?_⟩
  · intro i hi
    rcases clusterAux_cover l (List.range l.length) ∅
        (fun j hj => List.mem_range.mp hj) i (List.mem_range.mpr hi) with
        h | h
    · exact absurd h (Finset.not_mem_empty i)
    · exact h
  · exact clusterAux_pairwise l (List.range l.length) ∅
      (fun j hj => List.mem_range.mp hj)
  · intro x y
    constructor
    · rintro ⟨s, hs, hxs, hys⟩
      obtain ⟨k, hk, he⟩ := findBlobSets_blob_is_grow l s hs
      subst he
      have rx := (mem_grow hk x).mp hxs
      have ry := (mem_grow hk y).mp hys
      exact ⟨ReachIdx_lt hk rx, ReachIdx_lt hk ry,
        Relation.ReflTransGen.trans (ReachIdx_symm rx) ry⟩
    · rintro ⟨hx, _, hr⟩
      rcases clusterAux_cover l (List.range l.length) ∅
          (fun j hj => List.mem_range.mp hj) x (List.mem_range.mpr hx) with
          h | ⟨s, hs, hxs⟩
      · exact absurd h (Finset.not_mem_empty x)
      · obtain ⟨k, hk, he⟩ := findBlobSets_blob_is_grow l s hs
        subst he
        exact ⟨grow l k, hs, hxs, (mem_grow hk y).mpr
          (Relation.ReflTransGen.trans ((mem_grow hk x).mp hxs) hr)⟩

/-- Claim C3 witness: a concrete three-coordinate list (two adjacent points
and one far point). -/
def lBlobs : List (Tri ℤ) := [⟨0, 0, 0⟩, ⟨0, 0, 1⟩, ⟨5, 5, 5⟩]

theorem findBlobSets_partition_components_witness :
    ∃ s ∈ findBlobSets lBlobs, 0 ∈ s :=
  (findBlobSets_partition_components lBlobs).1 0 (by decide)

/-- The aggregate record findAberrantBlubs builds per blob:
`{'centroid': ..., 'total_density': ..., 'volume': ...}`. -/
structure Blob where
  centroid : Tri ℚ
  total_density : ℚ
  volume : ℚ
  deriving DecidableEq

/-- Python division `a / b` on exact numbers: raises ZeroDivisionError when
the denominator is zero (modelled as `none`).  (With numpy float32 operands
the same expression instead silently yields inf/nan; either way no flagged
result is produced.) -/
def pyDivOpt (a b : ℚ) : Option ℚ :=
  if b = 0 then none else some (a / b)

/-- The aggregation findAberrantBlubs performs for one `adjacentSet`:
sum the member densities (`totalDensity`) and the density-weighted
coordinates (`weights`), then compute
`centroidGrid = [weight/totalDensity for weight in weights]` — with no guard
on `totalDensity` — and convert it through `crs2xyzCoord`.  Member
coordinates are taken in candidate-list order (Python iterates the set in
unspecified order; all the sums are order-independent).  Each density fetch
can raise (claim C1) and mutates its coordinate, and the weights use the
mutated coordinate, exactly as in the source. -/
def blobOfSet (m : DensityMatrix) (l : List (Tri ℤ)) (s : Finset ℕ) :
    Option Blob :=
  let pts := ((List.range l.length).filter (fun i => decide (i ∈ s))).map
    (fun i => l.getD i ⟨0, 0, 0⟩)
  match List.foldlM
      (fun (acc : ℚ × Tri ℚ) pt =>
        match getPointDensityFromCrs m pt with
        | none => none
        | some (d, pt') =>
          some (acc.1 + d,
            ⟨acc.2.a0 + d * (pt'.a0 : ℚ), acc.2.a1 + d * (pt'.a1 : ℚ),
             acc.2.a2 + d * (pt'.a2 : ℚ)⟩))
      ((0 : ℚ), (⟨0, 0, 0⟩ : Tri ℚ)) pts with
  | none => none
  | some (total, w) =>
    match pyDivOpt w.a0 total, pyDivOpt w.a1 total, pyDivOpt w.a2 total with
    | some c0, some c1, some c2 =>
      some ⟨m.header.crs2xyzCoord ⟨c0, c1, c2⟩, total,
        m.header.unitVolume * (s.card : ℚ)⟩
    | _, _, _ => none

/-- `findAberrantBlubs`' clustering plus aggregation, as a function of the
candidate coordinate list: one Blob per adjacency component, in discovery
order; `none` models an uncaught exception inside the loop. -/
def findAberrantBlubsAggregate (m : DensityMatrix) (l : List (Tri ℤ)) :
    Option (List Blob) :=
  List.mapM (blobOfSet m l) (findBlobSets l)

/-- A 2×2×2 grid whose first two stored densities are +1 and -1. -/
def mZeroSum : DensityMatrix := ⟨hId, [1, -1, 0, 0, 0, 0, 0, 0]⟩

/-- The two adjacent coordinates holding densities +1 and -1: one cluster
with total density 0. -/
def lZeroSum : List (Tri ℤ) := [⟨0, 0, 0⟩, ⟨0, 0, 1⟩]

/-- Claim C6 (code bug): the centroid computation has no guard on a zero
total density.  For the single blob {(0,0,0), (0,0,1)} with densities +1 and
-1, `weight/totalDensity` divides by zero, so `findAberrantBlubs` raises an
unhandled ZeroDivisionError (or, under numpy float arithmetic, silently
produces a nan centroid) instead of flagging the degenerate blob: the
clustering emits a nonempty blob list, but no flagged aggregate is ever
returned. -/
theorem blobAggregate_zero_total_divides :
    findAberrantBlubsAggregate mZeroSum lZeroSum = none ∧
      findBlobSets lZeroSum ≠ [] := by
  have h1 : getPointDensityFromCrs mZeroSum ⟨0, 0, 0⟩ = some (1, ⟨0, 0, 0⟩) := by
    decide
  have h2 : getPointDensityFromCrs mZeroSum ⟨0, 0, 1⟩ = some (-1, ⟨0, 0, 1⟩) := by
    decide
  have hb : findBlobSets lZeroSum = [{0, 1}] := by decide
  constructor
  · unfold findAberrantBlubsAggregate
    rw [hb]
    have hone : blobOfSet mZeroSum lZeroSum {0, 1} = none := by
      unfold blobOfSet
      rw [show ((List.range lZeroSum.length).filter
          (fun i => decide (i ∈ ({0, 1} : Finset ℕ)))).map
          (fun i => lZeroSum.getD i ⟨0, 0, 0⟩) = [⟨0, 0, 0⟩, ⟨0, 0, 1⟩] from by
        decide]
      simp only [List.foldlM_cons, List.foldlM_nil, h1, h2, Option.bind_eq_bind,
        Option.some_bind, Option.pure_def]
      norm_num [pyDivOpt]
    simp [List.mapM, List.mapM.loop, hone]
  · decide

/-- One crystallographic operator from `pdbObj.header.rotationMats`: the 3×3
rotation block `rMat[:, 0:3]` and the translation column `rMat[:, 3]`. -/
structure RotOp where
  rmat : Tri (Tri ℚ)
  tvec : Tri ℚ
  deriving DecidableEq

/-- `np.dot` of a 3×3 matrix (rows) with a vector. -/
def mat3vec (M : Tri (Tri ℚ)) (v : Tri ℚ) : Tri ℚ :=
  ⟨M.a0.a0 * v.a0 + M.a0.a1 * v.a1 + M.a0.a2 * v.a2,
   M.a1.a0 * v.a0 + M.a1.a1 * v.a1 + M.a1.a2 * v.a2,
   M.a2.a0 * v.a0 + M.a2.a1 * v.a1 + M.a2.a2 * v.a2⟩

def triAddQ (a b : Tri ℚ) : Tri ℚ := ⟨a.a0 + b.a0, a.a1 + b.a1, a.a2 + b.a2⟩

/-- `orginalDensityBox` of `_calcSymmetryAtoms`: the images under
`crs2xyzCoord` of the eight crs corners
`[[c, r, s] for c in [0, ncrs[0]-1] for r in [0, ncrs[1]-1]
for s in [0, ncrs[2]-1]]`. -/
def densityBoxCorners (h : DensityHeader) : List (Tri ℚ) :=
  [h.crs2xyzCoord ⟨((0 : ℤ) : ℚ), ((0 : ℤ) : ℚ), ((0 : ℤ) : ℚ)⟩,
   h.crs2xyzCoord ⟨((0 : ℤ) : ℚ), ((0 : ℤ) : ℚ), ((h.ncrs.a2 - 1 : ℤ) : ℚ)⟩,
   h.crs2xyzCoord ⟨((0 : ℤ) : ℚ), ((h.ncrs.a1 - 1 : ℤ) : ℚ), ((0 : ℤ) : ℚ)⟩,
   h.crs2xyzCoord ⟨((0 : ℤ) : ℚ), ((h.ncrs.a1 - 1 : ℤ) : ℚ),
     ((h.ncrs.a2 - 1 : ℤ) : ℚ)⟩,
   h.crs2xyzCoord ⟨((h.ncrs.a0 - 1 : ℤ) : ℚ), ((0 : ℤ) : ℚ), ((0 : ℤ) : ℚ)⟩,
   h.crs2xyzCoord ⟨((h.ncrs.a0 - 1 : ℤ) : ℚ), ((0 : ℤ) : ℚ),
     ((h.ncrs.a2 - 1 : ℤ) : ℚ)⟩,
   h.crs2xyzCoord ⟨((h.ncrs.a0 - 1 : ℤ) : ℚ), ((h.ncrs.a1 - 1 : ℤ) : ℚ),
     ((0 : ℤ) : ℚ)⟩,
   h.crs2xyzCoord ⟨((h.ncrs.a0 - 1 : ℤ) : ℚ), ((h.ncrs.a1 - 1 : ℤ) : ℚ),
     ((h.ncrs.a2 - 1 : ℤ) : ℚ)⟩]

/-- `sorted(...)[0]`: the least entry of a nonempty list. -/
def listMinD : List ℚ → ℚ
  | [] => 0
  | x :: xs => xs.foldl min x

/-- `sorted(...)[-1]`: the greatest entry of a nonempty list. -/
def listMaxD : List ℚ → ℚ
  | [] => 0
  | x :: xs => xs.foldl max x

def symBoxLo (h : DensityHeader) : Tri ℚ :=
  ⟨listMinD ((densityBoxCorners h).map Tri.a0),
   listMinD ((densityBoxCorners h).map Tri.a1),
   listMinD ((densityBoxCorners h).map Tri.a2)⟩

def symBoxHi (h : DensityHeader) : Tri ℚ :=
  ⟨listMaxD ((densityBoxCorners h).map Tri.a0),
   listMaxD ((densityBoxCorners h).map Tri.a1),
   listMaxD ((densityBoxCorners h).map Tri.a2)⟩

/-- The retention test of `_calcSymmetryAtoms`:
`xs[0] - 5 <= x.coord[0] <= xs[-1] + 5 and ... (ys, zs alike)` — note the
margin is the literal 5 in Cartesian units. -/
def inSymBox (h : DensityHeader) (p : Tri ℚ) : Bool :=
  decide ((symBoxLo h).a0 - 5 ≤ p.a0 ∧ p.a0 ≤ (symBoxHi h).a0 + 5 ∧
    (symBoxLo h).a1 - 5 ≤ p.a1 ∧ p.a1 ≤ (symBoxHi h).a1 + 5 ∧
    (symBoxLo h).a2 - 5 ≤ p.a2 ∧ p.a2 ≤ (symBoxHi h).a2 + 5)

/-- `DensityAnalysis._calcSymmetryAtoms`: for every translation offset
`(i,j,k) ∈ {-1,0,1}³` and operator index `r`, either take all original atoms
unfiltered (the identity combination `i == j == k == 0 and r == 0`) or
transform each atom by `R·X + T + O·(i,j,k)` and keep those inside the
expanded bounding box; every kept atom is tagged with `(i,j,k,r)`. -/
def calcSymmetryAtoms (h : DensityHeader) (orthoMat : Tri (Tri ℚ))
    (rotMats : List RotOp) (atoms : List (Tri ℚ)) :
    List (Tri ℚ × (ℤ × ℤ × ℤ × ℕ)) :=
  ([-1, 0, 1] : List ℤ).flatMap (fun i =>
    ([-1, 0, 1] : List ℤ).flatMap (fun j =>
      ([-1, 0, 1] : List ℤ).flatMap (fun k =>
        (List.range rotMats.length).flatMap (fun r =>
          if i = 0 ∧ j = 0 ∧ k = 0 ∧ r = 0 then
            atoms.map (fun a => (a, (i, j, k, r)))
          else
            ((atoms.map (fun a =>
                triAddQ
                  (triAddQ
                    (mat3vec
                      (rotMats.getD r
                        ⟨⟨⟨1, 0, 0⟩, ⟨0, 1, 0⟩, ⟨0, 0, 1⟩⟩, ⟨0, 0, 0⟩⟩).rmat
                      a)
                    (rotMats.getD r
                      ⟨⟨⟨1, 0, 0⟩, ⟨0, 1, 0⟩, ⟨0, 0, 1⟩⟩, ⟨0, 0, 0⟩⟩).tvec)
                  (mat3vec orthoMat ⟨(i : ℚ), (j : ℚ), (k : ℚ)⟩))).filter
              (fun p => inSymBox h p)).map
            (fun p => (p, (i, j, k, r)))))))

/-- Claim C7, amended: every atom that `_calcSymmetryAtoms` emits from a
non-identity combination (provenance `(i,j,k,r) ≠ (0,0,0,0)`) lies inside the
bounding box expanded by the fixed margin 5 (in Cartesian units); but the
identity combination contributes every original atom with no filter at all
(see the counterexample), so the claim's inclusion of the identity case
fails. -/
theorem calcSymmetryAtoms_nonidentity_in_box (h : DensityHeader)
    (O : Tri (Tri ℚ)) (rots : List RotOp) (atoms : List (Tri ℚ))
    (p : Tri ℚ) (i j k : ℤ) (r : ℕ)
    (hmem : (p, (i, j, k, r)) ∈ calcSymmetryAtoms h O rots atoms)
    (hnid : ¬(i = 0 ∧ j = 0 ∧ k = 0 ∧ r = 0)) :
    inSymBox h p = true := by
  unfold calcSymmetryAtoms at hmem
  simp only [List.mem_flatMap] at hmem
  obtain ⟨i', _, j', _, k', _, r', _, hmem⟩ := hmem
  split at hmem
  · rename_i hcond
    simp only [List.mem_map, Prod.mk.injEq] at hmem
    obtain ⟨a, _, _, hi, hj, hk, hr⟩ := hmem
    refine absurd ⟨?_, ?_, ?_, ?_⟩ hnid
    · rw [← hi]
      exact hcond.1
    · rw [← hj]
      exact hcond.2.1
    · rw [← hk]
      exact hcond.2.2.1
    · rw [← hr]
      exact hcond.2.2.2
  · simp only [List.mem_map, List.mem_filter, Prod.mk.injEq] at hmem
    obtain ⟨q, ⟨_, hbox⟩, hqp, _⟩ := hmem
    exact hqp ▸ hbox

theorem pyInt_zero : pyInt 0 = 0 := by decide

theorem pyInt_one : pyInt 1 = 1 := by decide

theorem hId_symBoxLo : symBoxLo hId = ⟨0, 0, 0⟩ := by
  norm_num [symBoxLo, densityBoxCorners, DensityHeader.crs2xyzCoord,
    DensityHeader.map2xyz, DensityHeader.gridLength, Tri.zget, Tri.zset, hId,
    listMinD, pyInt_intCast, pyInt_zero, pyInt_one, min_def]

theorem hId_symBoxHi : symBoxHi hId = ⟨1, 1, 1⟩ := by
  norm_num [symBoxHi, densityBoxCorners, DensityHeader.crs2xyzCoord,
    DensityHeader.map2xyz, DensityHeader.gridLength, Tri.zget, Tri.zset, hId,
    listMaxD, pyInt_intCast, pyInt_zero, pyInt_one, max_def]

def idOrtho : Tri (Tri ℚ) := ⟨⟨1, 0, 0⟩, ⟨0, 1, 0⟩, ⟨0, 0, 1⟩⟩

def idRot : RotOp := ⟨⟨⟨1, 0, 0⟩, ⟨0, 1, 0⟩, ⟨0, 0, 1⟩⟩, ⟨0, 0, 0⟩⟩

/-- Claim C7 counterexample: the identity combination `(0,0,0,0)` performs no
bounding-box filtering — `inRangeAtoms = list(biopdbObj.get_atoms())`.  With
the 2×2×2 unit-spacing grid (box [0,1]³, expanded box [-5,6]³), an original
atom at (100,0,0) lies far outside the expanded box yet appears in the
output tagged (0,0,0,0), contradicting the claim for the identity case. -/
theorem calcSymmetryAtoms_identity_unfiltered_cex :
    ((⟨100, 0, 0⟩ : Tri ℚ), ((0 : ℤ), (0 : ℤ), (0 : ℤ), (0 : ℕ))) ∈
        calcSymmetryAtoms hId idOrtho [idRot] [⟨100, 0, 0⟩] ∧
      inSymBox hId ⟨100, 0, 0⟩ = false := by
  constructor
  · unfold calcSymmetryAtoms
    simp only [List.mem_flatMap]
    refine ⟨0, by decide, 0, by decide, 0, by decide, 0, by decide, ?_⟩
    rw [if_pos ⟨rfl, rfl, rfl, rfl⟩]
    simp
  · unfold inSymBox
    rw [hId_symBoxLo, hId_symBoxHi]
    norm_num

theorem calcSymmetryAtoms_nonidentity_in_box_witness :
    inSymBox hId ⟨0, 0, 0⟩ = true := by
  refine calcSymmetryAtoms_nonidentity_in_box hId idOrtho [idRot, idRot]
    [⟨0, 0, 0⟩] ⟨0, 0, 0⟩ 0 0 0 1 ?_ (by simp)
  unfold calcSymmetryAtoms
  simp only [List.mem_flatMap]
  refine ⟨0, by decide, 0, by decide, 0, by decide, 1, by decide, ?_⟩
  rw [if_neg (by simp)]
  simp only [List.mem_map, List.mem_filter, List.mem_singleton]
  refine ⟨⟨0, 0, 0⟩, ⟨⟨⟨0, 0, 0⟩, rfl, ?_⟩, ?_⟩, rfl⟩
  · norm_num [mat3vec, triAddQ, idRot, idOrtho]
  · unfold inSymBox
    rw [hId_symBoxLo, hId_symBoxHi]
    norm_num

/-- Byte `i` of a buffer (Python slicing never reads past the end; all
offsets used below lie inside the 224-byte region whose presence is checked
first). -/
def byteAt (b : List ℕ) (i : ℕ) : ℕ := b.getD i 0

/-- A 4-byte little-endian unsigned integer at `off`. -/
def u32le (b : List ℕ) (off : ℕ) : ℕ :=
  byteAt b off + 256 * byteAt b (off + 1) + 65536 * byteAt b (off + 2) +
    16777216 * byteAt b (off + 3)

/-- A 4-byte big-endian unsigned integer at `off`. -/
def u32be (b : List ℕ) (off : ℕ) : ℕ :=
  byteAt b (off + 3) + 256 * byteAt b (off + 2) + 65536 * byteAt b (off + 1) +
    16777216 * byteAt b off

/-- Two's-complement reading of a 32-bit value, as struct.unpack's `i`. -/
def toSigned32 (v : ℕ) : ℤ :=
  if v < 2147483648 then (v : ℤ) else (v : ℤ) - 4294967296

def int32At (little : Bool) (b : List ℕ) (off : ℕ) : ℤ :=
  toSigned32 (if little then u32le b off else u32be b off)

/-- The integer header fields `DensityHeader.fromFileHeader` decodes and the
label bytes: the full 224-byte structured slice, `ncrs` (offset 0),
`crsStart` (offset 16), the interval counts (offset 28), the raw axis triple
(offset 64), and the labels (bytes 224.., spaces removed). -/
structure FileHeaderData where
  structured : List ℕ
  ncrsRaw : Tri ℤ
  crsStartRaw : Tri ℤ
  nintervals : Tri ℤ
  axisMap : Tri ℤ
  labels : List ℕ
  deriving DecidableEq

/-- `DensityHeader.fromFileHeader` byte-level model.  Failure modes of the
real code (all modelled as `none`): `struct.unpack` raises struct.error when
`fileHeader[:224]` holds fewer than 224 bytes — there is no 1024-byte check
anywhere; `DensityHeader.__init__` then raises ZeroDivisionError when an
interval count is zero (`gridLength`, `unitVolume`, origin all divide by
them) and IndexError when an axis value `y` has `y - 1` outside Python's
list-index range [-3, 2], i.e. `y` outside [-2, 3] (the `indices[y-1]`
assignments).  Endianness: bytes [12:16) read little-endian; values in
[0, 6] select little-endian, everything else big-endian.  Float fields
cannot fail and are not tracked. -/
def fromFileHeaderModel (b : List ℕ) : Option FileHeaderData :=
  if b.length < 224 then none
  else
    let little := decide (u32le b 12 ≤ 6)
    let ni : Tri ℤ :=
      ⟨int32At little b 28, int32At little b 32, int32At little b 36⟩
    let ax : Tri ℤ :=
      ⟨int32At little b 64, int32At little b 68, int32At little b 72⟩
    if ni.a0 = 0 ∨ ni.a1 = 0 ∨ ni.a2 = 0 then none
    else if ax.a0 < -2 ∨ 3 < ax.a0 ∨ ax.a1 < -2 ∨ 3 < ax.a1 ∨
        ax.a2 < -2 ∨ 3 < ax.a2 then none
    else
      some ⟨b.take 224,
        ⟨int32At little b 0, int32At little b 4, int32At little b 8⟩,
        ⟨int32At little b 16, int32At little b 20, int32At little b 24⟩,
        ni, ax, (b.drop 224).filter (fun c => decide (c ≠ 32))⟩

/-- Claim C8, amended: header decoding fails exactly when fewer than 224
bytes are supplied (struct.error — there is no FormatError class and no
1024-byte check), or a decoded interval count is zero (ZeroDivisionError in
the eager geometry), or a decoded axis-permutation entry lies outside
[-2, 3] (IndexError); any other buffer of at least 224 bytes has its
224-byte structured portion and labels parsed. -/
theorem fromFileHeaderModel_isSome_iff (b : List ℕ) :
    (fromFileHeaderModel b).isSome = true ↔
      (224 ≤ b.length ∧
        (int32At (decide (u32le b 12 ≤ 6)) b 28 ≠ 0 ∧
          int32At (decide (u32le b 12 ≤ 6)) b 32 ≠ 0 ∧
          int32At (decide (u32le b 12 ≤ 6)) b 36 ≠ 0) ∧
        (-2 ≤ int32At (decide (u32le b 12 ≤ 6)) b 64 ∧
          int32At (decide (u32le b 12 ≤ 6)) b 64 ≤ 3 ∧
          -2 ≤ int32At (decide (u32le b 12 ≤ 6)) b 68 ∧
          int32At (decide (u32le b 12 ≤ 6)) b 68 ≤ 3 ∧
          -2 ≤ int32At (decide (u32le b 12 ≤ 6)) b 72 ∧
          int32At (decide (u32le b 12 ≤ 6)) b 72 ≤ 3)) := by
  unfold fromFileHeaderModel
  dsimp only
  split_ifs with h1 h2 h3
  · simp only [Option.isSome_none, Bool.false_eq_true, false_iff]
    rintro ⟨hl, -, -⟩
    omega
  · simp only [Option.isSome_none, Bool.false_eq_true, false_iff]
    rintro ⟨-, ⟨hn0, hn1, hn2⟩, -⟩
    tauto
  · simp only [Option.isSome_none, Bool.false_eq_true, false_iff]
    rintro ⟨-, -, hax⟩
    obtain ⟨a1, a2, a3, a4, a5, a6⟩ := hax
    omega
  · simp only [Option.isSome_some, true_iff]
    push_neg at h2 h3
    exact ⟨by omega, h2, by omega⟩

/-- A 300-byte buffer: interval counts (1,1,1) at offset 28, axis triple
(1,2,3) at offset 64, everything else zero. -/
def c8bytes : List ℕ :=
  List.replicate 28 0 ++ [1, 0, 0, 0, 1, 0, 0, 0, 1, 0, 0, 0] ++
    List.replicate 24 0 ++ [1, 0, 0, 0, 2, 0, 0, 0, 3, 0, 0, 0] ++
    List.replicate 224 0

/-- Claim C8 counterexample: a 300-byte buffer — far fewer than 1024 bytes —
decodes successfully (no error of any kind is raised), refuting "fails with
a FormatError whenever fewer than 1024 bytes are supplied". -/
theorem fromFileHeader_small_buffer_cex :
    (fromFileHeaderModel c8bytes).isSome = true ∧ c8bytes.length = 300 := by
  decide
